import Mathlib

/-!
Verification model of the real-time messaging subsystem of the
p2pmarketplace repository: the message persistence model
(message model in `src/backend/models`), the REST message routes
(`src/backend/routes`), and the Socket.io chat module.

Machine integers of the SQLite layer are modelled as `Nat`
(ids are positive AUTOINCREMENT integers; `0` plays the role of a
missing/falsy id, matching the JavaScript `!x` checks).  Timestamps
are ISO-8601 strings compared lexicographically, exactly as SQLite
compares TEXT values in `ORDER BY timestamp`.
-/

namespace P2PChat

/-- A row of the `messages` table (schema in the database init script):
`id INTEGER PRIMARY KEY AUTOINCREMENT, sender_id, receiver_id, content,
timestamp, is_read BOOLEAN DEFAULT 0`. -/
structure Message where
  id : Nat
  sender_id : Nat
  receiver_id : Nat
  content : String
  timestamp : String
  is_read : Bool
deriving DecidableEq

/-- A row of the `users` table, restricted to the columns the messaging
core reads (`id`, `username`). -/
structure User where
  id : Nat
  username : String
deriving DecidableEq

/-- The SQLite database state visible to the message model: the `users`
table, the `messages` table, and the next AUTOINCREMENT id. -/
structure Store where
  users : List User
  messages : List Message
  nextId : Nat
deriving DecidableEq

/-- Error taxonomy of the message model: `validationError` for the
`Missing required fields` rejection, `storageError` for a rejected
database call. -/
inductive StoreError where
  | validationError
  | storageError
deriving DecidableEq

/-- A joined row `SELECT m.*, s.username as sender_name, r.username as
receiver_name` produced by `getMessageById` and `getMessages`. -/
structure MessageView where
  id : Nat
  sender_id : Nat
  receiver_id : Nat
  content : String
  timestamp : String
  is_read : Bool
  sender_name : String
  receiver_name : String
deriving DecidableEq

/-- Look a user up by primary key (`JOIN users u ON u.id = ...`). -/
def findUser (users : List User) (uid : Nat) : Option User :=
  users.find? (fun u => u.id = uid)

/-- The read-side join of a message with both participants' usernames.
An inner `JOIN` drops the row when either user id has no matching
`users` row, hence the `Option`. -/
def joinView (users : List User) (m : Message) : Option MessageView :=
  match findUser users m.sender_id, findUser users m.receiver_id with
  | some s, some r =>
      some { id := m.id, sender_id := m.sender_id, receiver_id := m.receiver_id,
             content := m.content, timestamp := m.timestamp, is_read := m.is_read,
             sender_name := s.username, receiver_name := r.username }
  | _, _ => none

/-- `getMessageById`: `SELECT m.*, usernames FROM messages m JOIN users s
JOIN users r WHERE m.id = ?`; resolves `undefined` (here `none`) when no
row matches. -/
def getMessageById (st : Store) (id : Nat) : Option MessageView :=
  match st.messages.find? (fun m => m.id = id) with
  | none => none
  | some m => joinView st.users m

/-- `sendMessage(sender_id, receiver_id, content, timestamp = null)`:
rejects with `Missing required fields` when any of the three is falsy
(`0` for the integer ids, the empty string for content); otherwise
inserts the row with `timestamp || new Date().toISOString()` (the
parameter `now` stands for the current server time) and `is_read`
defaulting to `0`, then resolves with `getMessageById(this.lastID)`. -/
def sendMessage (st : Store) (now : String) (sender_id receiver_id : Nat)
    (content : String) (timestamp : Option String := none) :
    Except StoreError (Store × Option MessageView) :=
  if sender_id = 0 ∨ receiver_id = 0 ∨ content = "" then
    .error .validationError
  else
    let messageTimestamp :=
      match timestamp with
      | none => now
      | some t => if t = "" then now else t
    let m : Message :=
      { id := st.nextId, sender_id := sender_id, receiver_id := receiver_id,
        content := content, timestamp := messageTimestamp, is_read := false }
    let st' : Store :=
      { st with messages := st.messages ++ [m], nextId := st.nextId + 1 }
    .ok (st', getMessageById st' m.id)

/-- The `WHERE (sender_id = ? AND receiver_id = ?) OR (sender_id = ? AND
receiver_id = ?)` pair filter shared by `getMessages` and
`deleteConversation`. -/
def pairMatch (u1 u2 : Nat) (m : Message) : Prop :=
  (m.sender_id = u1 ∧ m.receiver_id = u2) ∨ (m.sender_id = u2 ∧ m.receiver_id = u1)

instance (u1 u2 : Nat) (m : Message) : Decidable (pairMatch u1 u2 m) := by
  unfold pairMatch; infer_instance

/-- Ascending `ORDER BY m.timestamp ASC` comparison on joined rows. -/
def tsLe (a b : MessageView) : Prop := a.timestamp ≤ b.timestamp

instance : DecidableRel tsLe :=
  fun a b => inferInstanceAs (Decidable (a.timestamp ≤ b.timestamp))

instance : IsTotal MessageView tsLe := ⟨fun a b => le_total a.timestamp b.timestamp⟩

instance : IsTrans MessageView tsLe := ⟨fun _ _ _ h1 h2 => le_trans h1 h2⟩

/-- The joined pair history before ordering: the `WHERE` pair filter
composed with the two-way username join. -/
def pairRows (st : Store) (user1_id user2_id : Nat) : List MessageView :=
  (st.messages.filter (fun m => pairMatch user1_id user2_id m)).filterMap
    (joinView st.users)

/-- `getMessages(user1_id, user2_id, limit = 50, offset = 0)`: the pair's
rows joined with both usernames, `ORDER BY m.timestamp ASC LIMIT ?
OFFSET ?`. -/
def getMessages (st : Store) (user1_id user2_id : Nat)
    (limit : Nat := 50) (offset : Nat := 0) : List MessageView :=
  (((pairRows st user1_id user2_id).insertionSort tsLe).drop offset).take limit

/-- The `WHERE receiver_id = ? AND sender_id = ? AND is_read = 0` match
of `markMessagesAsRead`. -/
def unreadFrom (receiver_id sender_id : Nat) (m : Message) : Prop :=
  m.receiver_id = receiver_id ∧ m.sender_id = sender_id ∧ m.is_read = false

instance (r s : Nat) (m : Message) : Decidable (unreadFrom r s m) := by
  unfold unreadFrom; infer_instance

/-- `markMessagesAsRead(receiver_id, sender_id)`: `UPDATE messages SET
is_read = 1 WHERE receiver_id = ? AND sender_id = ? AND is_read = 0`,
resolving with `this.changes`, the number of rows updated. -/
def markMessagesAsRead (st : Store) (receiver_id sender_id : Nat) : Store × Nat :=
  ({ st with messages := st.messages.map (fun m =>
      if unreadFrom receiver_id sender_id m then { m with is_read := true } else m) },
    st.messages.countP (fun m => decide (unreadFrom receiver_id sender_id m)))

/-- `getUnreadMessageCount(user_id)`: `SELECT sender_id, COUNT(*) FROM
messages WHERE receiver_id = ? AND is_read = 0 GROUP BY sender_id`,
returned as an association from sender id to count. -/
def getUnreadMessageCount (st : Store) (user_id : Nat) : List (Nat × Nat) :=
  let unread := st.messages.filter (fun m => m.receiver_id = user_id ∧ m.is_read = false)
  ((unread.map (fun m => m.sender_id)).dedup).map (fun s =>
    (s, (unread.filter (fun m => m.sender_id = s)).length))

/-- `deleteConversation(user1_id, user2_id)`: `DELETE FROM messages`
over the pair filter, resolving with the number of rows deleted. -/
def deleteConversation (st : Store) (user1_id user2_id : Nat) : Store × Nat :=
  ({ st with messages := st.messages.filter (fun m => ¬ pairMatch user1_id user2_id m) },
    st.messages.countP (fun m => decide (pairMatch user1_id user2_id m)))

/-- The `WHERE sender_id = ? OR receiver_id = ?` filter of the
conversations subquery: messages involving `user_id`. -/
def involves (user_id : Nat) (m : Message) : Prop :=
  m.sender_id = user_id ∨ m.receiver_id = user_id

instance (u : Nat) (m : Message) : Decidable (involves u m) := by
  unfold involves; infer_instance

/-- The `GROUP BY CASE WHEN sender_id = ? THEN receiver_id ELSE
sender_id END` grouping key of the conversations subquery: the
counterpart of a message involving `user_id`. -/
def convKey (user_id : Nat) (m : Message) : Nat :=
  if m.sender_id = user_id then m.receiver_id else m.sender_id

/-- The subquery's row source: the messages involving `user_id`. -/
def convMine (st : Store) (user_id : Nat) : List Message :=
  st.messages.filter (fun m => involves user_id m)

/-- The `MAX(id)` aggregate of one counterpart group. -/
def convGroupMax (st : Store) (user_id c : Nat) : Nat :=
  (((convMine st user_id).filter (fun m => convKey user_id m = c)).map
    (fun m => m.id)).foldr max 0

/-- The `SELECT MAX(id) ... GROUP BY ...` subquery of
`getUserConversations`: for each counterpart group, the maximum message
id in that group. -/
def lastIds (st : Store) (user_id : Nat) : List Nat :=
  (((convMine st user_id).map (convKey user_id)).dedup).map (convGroupMax st user_id)

/-- A row of the `getUserConversations` result: `m.*`, the counterpart's
name and id from the CASE join, and the correlated unread count. -/
structure ConversationRow where
  id : Nat
  sender_id : Nat
  receiver_id : Nat
  content : String
  timestamp : String
  is_read : Bool
  other_user_name : String
  other_user_id : Nat
  unread_count : Nat
deriving DecidableEq

/-- The `JOIN users u ON (CASE WHEN m.sender_id = ? THEN m.receiver_id =
u.id WHEN m.receiver_id = ? THEN m.sender_id = u.id END)` join: the
counterpart user of a row, none when the CASE yields NULL or the user id
has no row. -/
def joinOther (users : List User) (user_id : Nat) (m : Message) : Option User :=
  if m.sender_id = user_id then findUser users m.receiver_id
  else if m.receiver_id = user_id then findUser users m.sender_id
  else none

/-- The correlated `(SELECT COUNT(*) ... is_read = 0 AND receiver_id =
?)` unread count attached to each conversation row. -/
def convUnread (st : Store) (user_id : Nat) (m : Message) : Nat :=
  st.messages.countP (fun x => decide
    (((x.sender_id = m.sender_id ∧ x.receiver_id = m.receiver_id) ∨
      (x.sender_id = m.receiver_id ∧ x.receiver_id = m.sender_id)) ∧
     x.is_read = false ∧ x.receiver_id = user_id))

/-- Descending `ORDER BY m.timestamp DESC` comparison on conversation
rows. -/
def tsGe (a b : ConversationRow) : Prop := b.timestamp ≤ a.timestamp

instance : DecidableRel tsGe :=
  fun a b => inferInstanceAs (Decidable (b.timestamp ≤ a.timestamp))

instance : IsTotal ConversationRow tsGe := ⟨fun a b => le_total b.timestamp a.timestamp⟩

instance : IsTrans ConversationRow tsGe := ⟨fun _ _ _ h1 h2 => le_trans h2 h1⟩

/-- The unsorted result rows of `getUserConversations`: the rows whose
id is in the per-counterpart `MAX(id)` set, joined with the counterpart
user through the CASE condition and carrying the correlated unread
count. -/
def convRows (st : Store) (user_id : Nat) : List ConversationRow :=
  (st.messages.filter (fun m => m.id ∈ lastIds st user_id)).filterMap
    (fun m => (joinOther st.users user_id m).map (fun u =>
      ({ id := m.id, sender_id := m.sender_id, receiver_id := m.receiver_id,
         content := m.content, timestamp := m.timestamp, is_read := m.is_read,
         other_user_name := u.username, other_user_id := u.id,
         unread_count := convUnread st user_id m } : ConversationRow)))

/-- `getUserConversations(user_id)`: the joined last-message rows,
`ORDER BY m.timestamp DESC`. -/
def getUserConversations (st : Store) (user_id : Nat) : List ConversationRow :=
  (convRows st user_id).insertionSort tsGe

/-!  REST message routes (`POST /messages/send`, `GET /messages`). -/

/-- The `{count, messages}` body of a successful `GET /messages`
response. -/
structure HistoryResponse where
  count : Nat
  messages : List MessageView
deriving DecidableEq

/-- The `GET /messages` route handler: requires both `sender_id` and
`receiver_id` (falsy ids rejected with 400, store untouched), applies
`parseInt(limit) || 50` and `parseInt(offset) || 0`, fetches the pair
history via `getMessages`, then calls
`markMessagesAsRead(sender_id, receiver_id)` — i.e. marks read the
messages RECEIVED by the query's `sender_id` FROM the query's
`receiver_id` — and responds with `{count: messages.length, messages}`. -/
def getMessagesRoute (st : Store) (sender_id receiver_id limit offset : Nat) :
    Store × Option HistoryResponse :=
  if sender_id = 0 ∨ receiver_id = 0 then (st, none)
  else
    let lim := if limit = 0 then 50 else limit
    let off := offset
    let messages := getMessages st sender_id receiver_id lim off
    let marked := markMessagesAsRead st sender_id receiver_id
    (marked.1, some { count := messages.length, messages := messages })

/-!  The operation alphabet of the Message Store, for the immutability
invariant: every exported model function as a state transition. -/

/-- One Message Store call: `sendMessage`, `getMessageById`,
`getMessages`, `markMessagesAsRead`, `getUnreadMessageCount`,
`getUserConversations` or `deleteConversation`.  Read-only calls leave
the store unchanged. -/
inductive Op where
  | persist (now : String) (sender_id receiver_id : Nat) (content : String)
      (timestamp : Option String)
  | fetchById (id : Nat)
  | fetchHistory (user1_id user2_id limit offset : Nat)
  | markRead (receiver_id sender_id : Nat)
  | unreadCounts (user_id : Nat)
  | conversations (user_id : Nat)
  | deleteConv (user1_id user2_id : Nat)
deriving DecidableEq

/-- The store transition of one Message Store call.  A rejected
`sendMessage` (validation failure) inserts nothing. -/
def applyOp (st : Store) : Op → Store
  | .persist now s r c ts =>
      match sendMessage st now s r c ts with
      | .ok (st', _) => st'
      | .error _ => st
  | .fetchById _ => st
  | .fetchHistory _ _ _ _ => st
  | .markRead r s => (markMessagesAsRead st r s).1
  | .unreadCounts _ => st
  | .conversations _ => st
  | .deleteConv u1 u2 => (deleteConversation st u1 u2).1

/-- Well-formedness maintained by the SQLite schema: every stored id is
below the AUTOINCREMENT counter, and ids are unique (PRIMARY KEY). -/
def Store.WF (st : Store) : Prop :=
  (∀ m ∈ st.messages, m.id < st.nextId) ∧ (st.messages.map Message.id).Nodup

/-!  Socket.io chat module.  User ids are the same integers the message
model stores; room names are built the way the JavaScript does:
`[a, b].sort().join('_')`, where the default `Array.sort` compares the
DECIMAL STRING forms of the ids, and the personal room is
`user_<id>`. -/

/-- Lexicographic code-unit comparison of character lists: the
comparison JavaScript's default `Array.sort` applies to the string
forms of its elements. -/
def charListLt : List Char → List Char → Bool
  | [], [] => false
  | [], _ :: _ => true
  | _ :: _, [] => false
  | a :: as, b :: bs =>
      if a < b then true else if b < a then false else charListLt as bs

/-- String comparison through the character lists. -/
def strLt (a b : String) : Bool := charListLt a.toList b.toList

/-- The room name `[a, b].sort().join('_')`: the default JavaScript sort
orders the two elements by their string forms, so the pair is joined
smaller-string first. -/
def roomKey (a b : Nat) : String :=
  if strLt (toString b) (toString a) then toString b ++ "_" ++ toString a
  else toString a ++ "_" ++ toString b

/-- The personal room a connection joins at handshake. -/
def userRoom (uid : Nat) : String := "user_" ++ toString uid

/-- One live Socket.io connection: its socket id, the authenticated
`socket.userId`, the set of rooms it has joined (the personal room plus
any conversation rooms), and the `socket.currentChat` marker. -/
structure Conn where
  sid : String
  uid : Nat
  rooms : List String
  currentChat : Option String
deriving DecidableEq

/-- A broadcast target: `io.to(room)`, `socket.to(room)` (room minus the
emitting socket), `socket.emit` (one socket), or `io.emit` (all). -/
inductive Target where
  | room (name : String)
  | roomExcept (name : String) (sid : String)
  | sock (sid : String)
  | all
deriving DecidableEq

/-- The server-to-client events of the chat module. -/
inductive Event where
  | new_message (m : Option MessageView)
  | message_notification (m : MessageView) (senderId : Nat) (senderName : String)
  | messages_read (sender_id receiver_id count : Nat)
  | user_typing (uid : Nat)
  | user_stop_typing (uid : Nat)
  | user_status (uid : Nat) (status : String)
  | error (msg : String)
deriving DecidableEq

/-- The full realtime server state: the connected sockets, the
module-level `activeUsers` map (user id to socket id), and the
database. -/
structure ChatState where
  conns : List Conn
  activeUsers : List (Nat × String)
  store : Store
deriving DecidableEq

/-- `Map.prototype.set`: overwrite the existing entry for the key, else
append a new one. -/
def mapSet (m : List (Nat × String)) (k : Nat) (v : String) : List (Nat × String) :=
  if m.any (fun p => p.1 = k) then
    m.map (fun p => if p.1 = k then (k, v) else p)
  else m ++ [(k, v)]

/-- `Map.prototype.get` as an `Option`. -/
def mapGet (m : List (Nat × String)) (k : Nat) : Option String :=
  (m.find? (fun p => p.1 = k)).map (fun p => p.2)

/-- `Map.prototype.has`. -/
def mapHas (m : List (Nat × String)) (k : Nat) : Bool :=
  m.any (fun p => p.1 = k)

/-- `Map.prototype.delete`. -/
def mapDelete (m : List (Nat × String)) (k : Nat) : List (Nat × String) :=
  m.filter (fun p => ¬ p.1 = k)

/-- The `content.trim() === ''` check of the `send_message` handler: a
string trims to the empty string exactly when every character in it is
whitespace. -/
def trimEmpty (s : String) : Bool := s.toList.all (fun ch => ch.isWhitespace)

/-- Whether a broadcast target delivers to a given connection. -/
def receives (c : Conn) : Target → Prop
  | .room r => r ∈ c.rooms
  | .roomExcept r s => r ∈ c.rooms ∧ c.sid ≠ s
  | .sock s => c.sid = s
  | .all => True

instance (c : Conn) (t : Target) : Decidable (receives c t) := by
  cases t <;> (unfold receives; infer_instance)

/-- The connection handler: with a falsy handshake user id the
middleware refuses the connection before any state is created;
otherwise the socket is registered, `activeUsers.set(userId, socket.id)`
runs (overwriting any previous handle for that user), the socket joins
its personal room, and an online `user_status` is broadcast to all. -/
def onConnection (st : ChatState) (sid : String) (uid : Nat) :
    ChatState × List (Target × Event) :=
  if uid = 0 then (st, [])
  else
    let c : Conn := { sid := sid, uid := uid, rooms := [userRoom uid], currentChat := none }
    ({ st with conns := st.conns ++ [c],
               activeUsers := mapSet st.activeUsers uid sid },
     [(Target.all, Event.user_status uid "online")])

/-- The `disconnect` handler of the socket with the given socket id: the
socket closes, `activeUsers.delete(userId)` removes the user's entry
(whichever handle it holds), and an offline `user_status` is broadcast
to all. -/
def onDisconnect (st : ChatState) (sid : String) :
    ChatState × List (Target × Event) :=
  match st.conns.find? (fun c => c.sid = sid) with
  | none => (st, [])
  | some c =>
      ({ st with conns := st.conns.filter (fun x => ¬ x.sid = sid),
                 activeUsers := mapDelete st.activeUsers c.uid },
       [(Target.all, Event.user_status c.uid "offline")])

/-- The `join_conversation` handler: a falsy `other_user_id` answers an
error to the socket; otherwise the socket joins the sorted-pair room and
records it as its current chat. -/
def onJoinConversation (c : Conn) (other_user_id : Nat) :
    Conn × List (Target × Event) :=
  if other_user_id = 0 then
    (c, [(Target.sock c.sid, Event.error "Other user ID is required")])
  else
    let roomName := roomKey c.uid other_user_id
    ({ c with rooms := if roomName ∈ c.rooms then c.rooms else c.rooms ++ [roomName],
              currentChat := some roomName }, [])

/-- The `leave_conversation` handler: leave the sorted-pair room and
clear the current chat. -/
def onLeaveConversation (c : Conn) (other_user_id : Nat) :
    Conn × List (Target × Event) :=
  if other_user_id = 0 then
    (c, [(Target.sock c.sid, Event.error "Other user ID is required")])
  else
    let roomName := roomKey c.uid other_user_id
    ({ c with rooms := c.rooms.filter (fun r => ¬ r = roomName),
              currentChat := none }, [])

/-- The `typing` handler: relay `user_typing` to the sorted-pair room
excluding the emitting socket (`socket.to(room)` semantics); a falsy
receiver id is silently ignored. -/
def onTyping (c : Conn) (receiver_id : Nat) : List (Target × Event) :=
  if receiver_id = 0 then []
  else [(Target.roomExcept (roomKey c.uid receiver_id) c.sid, Event.user_typing c.uid)]

/-- The `mark_read` handler: mark the messages from `sender_id` to the
authenticated user as read, then emit `messages_read` with the affected
count to the sorted-pair room. -/
def onMarkRead (st : ChatState) (c : Conn) (sender_id : Nat) :
    ChatState × List (Target × Event) :=
  if sender_id = 0 then
    (st, [(Target.sock c.sid, Event.error "Sender ID is required")])
  else
    let marked := markMessagesAsRead st.store c.uid sender_id
    ({ st with store := marked.1 },
     [(Target.room (roomKey c.uid sender_id),
       Event.messages_read sender_id c.uid marked.2)])

/-- The notification tail of the `send_message` handler: when the
receiver is in `activeUsers`, their registered socket still exists and
its current chat is not this conversation's room, a
`message_notification` goes to the receiver's personal room.  Reading
`message.sender_name` off an `undefined` message throws, and the
handler's `catch` then emits the error to the sender — after the
`new_message` broadcasts have already gone out. -/
def notifyEmits (conns : List Conn) (activeUsers : List (Nat × String))
    (senderSid : String) (sender_id receiver_id : Nat) (roomName : String)
    (mv : Option MessageView) : List (Target × Event) :=
  if mapHas activeUsers receiver_id then
    match mapGet activeUsers receiver_id with
    | none => []
    | some rsid =>
        match conns.find? (fun x => x.sid = rsid) with
        | none => []
        | some rs =>
            if rs.currentChat ≠ some roomName then
              match mv with
              | some msg =>
                  [(Target.room (userRoom receiver_id),
                    Event.message_notification msg sender_id msg.sender_name)]
              | none => [(Target.sock senderSid, Event.error "Failed to send message")]
            else []
  else []

/-- The `send_message` handler.  Validation failure (falsy receiver,
falsy or whitespace-only content) answers `Invalid message data` to the
socket only.  Otherwise the message is persisted through the same
`sendMessage` model the REST API uses — `storageOk = false` stands for
the database call rejecting — and a rejection is caught and answered as
`Failed to send message` to the socket only, with nothing broadcast.  On
success the persisted message is emitted as `new_message` three times:
to the sorted-pair room, to the sender's personal room, and to the
receiver's personal room, followed by the notification tail. -/
def onSendMessage (st : ChatState) (c : Conn) (receiver_id : Nat)
    (content : String) (now : String) (storageOk : Bool) :
    ChatState × List (Target × Event) :=
  let sender_id := c.uid
  if receiver_id = 0 ∨ content = "" ∨ trimEmpty content = true then
    (st, [(Target.sock c.sid, Event.error "Invalid message data")])
  else
    match (if storageOk then sendMessage st.store now sender_id receiver_id content none
           else Except.error StoreError.storageError) with
    | .error _ => (st, [(Target.sock c.sid, Event.error "Failed to send message")])
    | .ok (store', mv) =>
        let roomName := roomKey sender_id receiver_id
        ({ st with store := store' },
         [(Target.room roomName, Event.new_message mv),
          (Target.room (userRoom sender_id), Event.new_message mv),
          (Target.room (userRoom receiver_id), Event.new_message mv)]
         ++ notifyEmits st.conns st.activeUsers c.sid sender_id receiver_id roomName mv)

/-- Whether an emission is a `new_message` event. -/
def isNewMessage : Event → Prop
  | .new_message _ => True
  | _ => False

instance (e : Event) : Decidable (isNewMessage e) := by
  cases e <;> (unfold isNewMessage; infer_instance)

/-- The targets of the `new_message` emissions of a handler run, in
order. -/
def newMessageTargets (emits : List (Target × Event)) : List Target :=
  emits.filterMap (fun p => match p.2 with
    | Event.new_message _ => some p.1
    | _ => none)

/-- How many copies of `new_message` a given connection receives from a
handler run: one per emission whose target covers the connection. -/
def newMessageCopies (c : Conn) (emits : List (Target × Event)) : Nat :=
  emits.countP (fun p => decide (isNewMessage p.2 ∧ receives c p.1))

/-- Whether an emission is an `error` event. -/
def isError : Event → Prop
  | .error _ => True
  | _ => False

instance (e : Event) : Decidable (isError e) := by
  cases e <;> (unfold isError; infer_instance)

/-- How many `error` events a given connection receives from a handler
run. -/
def errorCopies (c : Conn) (emits : List (Target × Event)) : Nat :=
  emits.countP (fun p => decide (isError p.2 ∧ receives c p.1))

/-!  Helper lemmas. -/

/-- The marking function of `markMessagesAsRead`. -/
def markFn (receiver_id sender_id : Nat) (m : Message) : Message :=
  if unreadFrom receiver_id sender_id m then { m with is_read := true } else m

theorem markMessagesAsRead_eq (st : Store) (r s : Nat) :
    markMessagesAsRead st r s =
      ({ st with messages := st.messages.map (markFn r s) },
       st.messages.countP (fun m => decide (unreadFrom r s m))) := rfl

theorem markFn_not_unread (r s : Nat) (m : Message) :
    ¬ unreadFrom r s (markFn r s m) := by
  unfold markFn
  by_cases h : unreadFrom r s m
  · simp only [if_pos h]
    intro hcon
    exact absurd hcon.2.2 (by simp)
  · simpa [if_neg h] using h

theorem markFn_idem (r s : Nat) (m : Message) :
    markFn r s (markFn r s m) = markFn r s m := by
  have h := markFn_not_unread r s m
  unfold markFn
  simp only [markFn] at h
  rw [if_neg h]

theorem markFn_id_of_not (r s : Nat) (m : Message) (h : ¬ unreadFrom r s m) :
    markFn r s m = m := by
  unfold markFn; rw [if_neg h]

/-- C6: `markRead(receiver, sender)` sets the read flag on exactly the
currently-unread messages from `sender` to `receiver` (all other rows
and fields untouched), returns the number of rows affected, and an
immediately repeated call returns count 0 and changes nothing. -/
theorem markRead_idempotent (st : Store) (receiver_id sender_id : Nat) :
    List.Forall₂ (fun old new => new =
        if unreadFrom receiver_id sender_id old then { old with is_read := true } else old)
      st.messages (markMessagesAsRead st receiver_id sender_id).1.messages
    ∧ (markMessagesAsRead st receiver_id sender_id).2 =
        st.messages.countP (fun m => decide (unreadFrom receiver_id sender_id m))
    ∧ markMessagesAsRead (markMessagesAsRead st receiver_id sender_id).1
        receiver_id sender_id =
      ((markMessagesAsRead st receiver_id sender_id).1, 0) := by
  refine ⟨?_, rfl, ?_⟩
  · rw [markMessagesAsRead_eq]
    rw [List.forall₂_map_right_iff]
    rw [List.forall₂_same]
    intro x _
    rfl
  · rw [markMessagesAsRead_eq, markMessagesAsRead_eq]
    simp only [Prod.mk.injEq]
    constructor
    · congr 1
      rw [List.map_map]
      exact List.map_congr_left (fun m _ => markFn_idem receiver_id sender_id m)
    · rw [List.countP_eq_zero]
      intro m hm
      rw [List.mem_map] at hm
      obtain ⟨m0, _, rfl⟩ := hm
      simpa using markFn_not_unread receiver_id sender_id m0

/-- C9: `unreadCounts(user)` has a key for a counterpart exactly when
that counterpart has at least one unread message addressed to `user`,
and the associated count is the number of such messages. -/
theorem unreadCounts_spec (st : Store) (user_id c n : Nat) :
    (c ∈ (getUnreadMessageCount st user_id).map Prod.fst ↔
      ∃ m ∈ st.messages, m.sender_id = c ∧ m.receiver_id = user_id ∧ m.is_read = false)
    ∧ ((c, n) ∈ getUnreadMessageCount st user_id →
        n = st.messages.countP (fun m =>
          decide (m.sender_id = c ∧ m.receiver_id = user_id ∧ m.is_read = false))) := by
  constructor
  · unfold getUnreadMessageCount
    simp only [List.map_map, List.mem_map, Function.comp]
    constructor
    · rintro ⟨s, hs, rfl⟩
      rw [List.mem_dedup, List.mem_map] at hs
      obtain ⟨m, hm, rfl⟩ := hs
      rw [List.mem_filter] at hm
      refine ⟨m, hm.1, rfl, ?_⟩
      have := hm.2
      simp only [decide_eq_true_eq] at this
      exact ⟨this.1, by simp [this.2]⟩
    · rintro ⟨m, hm, rfl, hrecv, hread⟩
      refine ⟨m.sender_id, ?_, rfl⟩
      rw [List.mem_dedup, List.mem_map]
      exact ⟨m, List.mem_filter.mpr ⟨hm, by simp [hrecv, hread]⟩, rfl⟩
  · unfold getUnreadMessageCount
    intro hmem
    simp only [List.mem_map] at hmem
    obtain ⟨s, _, heq⟩ := hmem
    have hc : s = c := congrArg Prod.fst heq
    subst hc
    have hn : n = ((st.messages.filter (fun m =>
        decide (m.receiver_id = user_id ∧ m.is_read = false))).filter
        (fun m => decide (m.sender_id = s))).length := (congrArg Prod.snd heq).symm
    rw [hn, List.filter_filter, ← List.countP_eq_length_filter]
    apply List.countP_congr
    intro m _
    simp only [Bool.and_eq_true, decide_eq_true_eq]

/-- Witness for C9: user 2 has one unread message to user 1, so key 2
appears with count 1. -/
theorem unreadCounts_spec_witness :
    (2 ∈ (getUnreadMessageCount
        { users := [⟨1, "alice"⟩, ⟨2, "bob"⟩],
          messages := [⟨1, 2, 1, "hey", "T1", false⟩], nextId := 2 } 1).map Prod.fst)
    ∧ (1 : Nat) = (List.countP (fun m =>
        decide (m.sender_id = 2 ∧ m.receiver_id = 1 ∧ m.is_read = false))
        [(⟨1, 2, 1, "hey", "T1", false⟩ : Message)]) :=
  ⟨(unreadCounts_spec
      { users := [⟨1, "alice"⟩, ⟨2, "bob"⟩],
        messages := [⟨1, 2, 1, "hey", "T1", false⟩], nextId := 2 } 1 2 1).1.mpr
      ⟨⟨1, 2, 1, "hey", "T1", false⟩, by decide⟩,
   (unreadCounts_spec
      { users := [⟨1, "alice"⟩, ⟨2, "bob"⟩],
        messages := [⟨1, 2, 1, "hey", "T1", false⟩], nextId := 2 } 1 2 1).2
      (by decide)⟩

theorem find?_append_of_none {α : Type} (p : α → Bool) (l1 l2 : List α)
    (h : ∀ x ∈ l1, p x = false) : (l1 ++ l2).find? p = l2.find? p := by
  induction l1 with
  | nil => rfl
  | cons a t ih =>
      have ha : p a = false := h a (List.mem_cons_self a t)
      simp only [List.cons_append, List.find?_cons, ha]
      exact ih (fun x hx => h x (List.mem_cons_of_mem a hx))

/-- C3: for a non-falsy sender id, receiver id and non-empty content
(both ids naming registered users), `sendMessage` succeeds, assigns the
next id and the server clock as timestamp, stores the content verbatim
with the read flag down, and re-fetching the assigned id returns the
very same enriched row; a falsy sender, receiver or content is instead
rejected with the validation error. -/
theorem persist_fetch_roundtrip (st : Store) (now : String) (s r : Nat)
    (content : String) (us ur : User) :
    (st.WF → s ≠ 0 → r ≠ 0 → content ≠ "" →
      findUser st.users s = some us → findUser st.users r = some ur →
      ∃ st', sendMessage st now s r content none = .ok (st',
          some { id := st.nextId, sender_id := s, receiver_id := r,
                 content := content, timestamp := now, is_read := false,
                 sender_name := us.username, receiver_name := ur.username })
        ∧ getMessageById st' st.nextId =
            some { id := st.nextId, sender_id := s, receiver_id := r,
                   content := content, timestamp := now, is_read := false,
                   sender_name := us.username, receiver_name := ur.username })
    ∧ ((s = 0 ∨ r = 0 ∨ content = "") →
        sendMessage st now s r content none = .error .validationError) := by
  constructor
  · intro hWF hs hr hc hus hur
    have hvalid : ¬ (s = 0 ∨ r = 0 ∨ content = "") := by
      push_neg
      exact ⟨hs, hr, hc⟩
    have hget : getMessageById
        { st with messages := st.messages ++
            [{ id := st.nextId, sender_id := s, receiver_id := r, content := content,
               timestamp := now, is_read := false }], nextId := st.nextId + 1 }
        st.nextId = some
        { id := st.nextId, sender_id := s, receiver_id := r, content := content,
          timestamp := now, is_read := false,
          sender_name := us.username, receiver_name := ur.username } := by
      unfold getMessageById
      have hfind : ((st.messages ++
          [{ id := st.nextId, sender_id := s, receiver_id := r, content := content,
             timestamp := now, is_read := false : Message }]).find?
          (fun m => m.id = st.nextId)) = some
          { id := st.nextId, sender_id := s, receiver_id := r, content := content,
            timestamp := now, is_read := false } := by
        rw [find?_append_of_none]
        · simp
        · intro x hx
          have := hWF.1 x hx
          simp only [decide_eq_false_iff_not]
          omega
      simp only [hfind]
      unfold joinView
      simp only [hus, hur]
    have hsend : sendMessage st now s r content none = .ok
        ({ st with messages := st.messages ++
            [{ id := st.nextId, sender_id := s, receiver_id := r, content := content,
               timestamp := now, is_read := false }], nextId := st.nextId + 1 },
         getMessageById
          { st with messages := st.messages ++
              [{ id := st.nextId, sender_id := s, receiver_id := r, content := content,
                 timestamp := now, is_read := false }], nextId := st.nextId + 1 }
          st.nextId) := by
      unfold sendMessage
      rw [if_neg hvalid]
    refine ⟨_, ?_, hget⟩
    rw [hsend, hget]
  · intro hbad
    unfold sendMessage
    rw [if_pos hbad]

/-- Witness for C3 at a concrete two-user store. -/
theorem persist_fetch_roundtrip_witness :
    ∃ st', sendMessage { users := [⟨1, "alice"⟩, ⟨2, "bob"⟩], messages := [], nextId := 1 }
        "2024-01-01T00:00:00.000Z" 1 2 "hello" none = .ok (st',
        some { id := 1, sender_id := 1, receiver_id := 2, content := "hello",
               timestamp := "2024-01-01T00:00:00.000Z", is_read := false,
               sender_name := "alice", receiver_name := "bob" })
      ∧ getMessageById st' 1 =
          some { id := 1, sender_id := 1, receiver_id := 2, content := "hello",
                 timestamp := "2024-01-01T00:00:00.000Z", is_read := false,
                 sender_name := "alice", receiver_name := "bob" } :=
  (persist_fetch_roundtrip
    { users := [⟨1, "alice"⟩, ⟨2, "bob"⟩], messages := [], nextId := 1 }
    "2024-01-01T00:00:00.000Z" 1 2 "hello" ⟨1, "alice"⟩ ⟨2, "bob"⟩).1
    ⟨by simp, by simp⟩ (by decide) (by decide) (by decide) (by rfl) (by rfl)

/-!  The immutability invariant (C5). -/

/-- A later row is a faithful descendant of an earlier row with the same
id: the four payload fields are untouched and the read flag is
monotone. -/
def preserved (old new : Message) : Prop :=
  new.sender_id = old.sender_id ∧ new.receiver_id = old.receiver_id ∧
  new.content = old.content ∧ new.timestamp = old.timestamp ∧
  (old.is_read = true → new.is_read = true)

theorem preserved_refl (m : Message) : preserved m m :=
  ⟨rfl, rfl, rfl, rfl, fun h => h⟩

theorem preserved_trans {a b c : Message} (h1 : preserved a b) (h2 : preserved b c) :
    preserved a c :=
  ⟨h2.1.trans h1.1, h2.2.1.trans h1.2.1, h2.2.2.1.trans h1.2.2.1,
   h2.2.2.2.1.trans h1.2.2.2.1, fun h => h2.2.2.2.2 (h1.2.2.2.2 h)⟩

theorem markFn_preserved (r s : Nat) (m : Message) : preserved m (markFn r s m) := by
  unfold markFn
  by_cases h : unreadFrom r s m
  · rw [if_pos h]
    exact ⟨rfl, rfl, rfl, rfl, fun _ => rfl⟩
  · rw [if_neg h]
    exact preserved_refl m

theorem markFn_id (r s : Nat) (m : Message) : (markFn r s m).id = m.id := by
  unfold markFn
  by_cases h : unreadFrom r s m
  · rw [if_pos h]
  · rw [if_neg h]

/-- Each Message Store operation only appends fresh rows, monotonically
marks read flags, or deletes rows: every row of the next state either
carries a fresh id or descends faithfully from a row of the previous
state. -/
theorem applyOp_step (st : Store) (op : Op) (m' : Message)
    (h' : m' ∈ (applyOp st op).messages) :
    st.nextId ≤ m'.id ∨ ∃ m0 ∈ st.messages, m0.id = m'.id ∧ preserved m0 m' := by
  cases op with
  | persist now s r c ts =>
      simp only [applyOp] at h'
      cases hsend : sendMessage st now s r c ts with
      | error e =>
          rw [hsend] at h'
          exact Or.inr ⟨m', h', rfl, preserved_refl m'⟩
      | ok p =>
          rw [hsend] at h'
          unfold sendMessage at hsend
          by_cases hv : s = 0 ∨ r = 0 ∨ c = ""
          · rw [if_pos hv] at hsend
            exact absurd hsend (by simp)
          · rw [if_neg hv] at hsend
            simp only [Except.ok.injEq] at hsend
            rw [← hsend] at h'
            simp only [List.mem_append, List.mem_singleton] at h'
            cases h' with
            | inl h0 => exact Or.inr ⟨m', h0, rfl, preserved_refl m'⟩
            | inr h0 => exact Or.inl (by rw [h0])
  | fetchById id => exact Or.inr ⟨m', h', rfl, preserved_refl m'⟩
  | fetchHistory a b c d => exact Or.inr ⟨m', h', rfl, preserved_refl m'⟩
  | markRead r s =>
      simp only [applyOp, markMessagesAsRead, List.mem_map] at h'
      obtain ⟨m0, hm0, rfl⟩ := h'
      refine Or.inr ⟨m0, hm0, ?_, ?_⟩
      · exact (markFn_id r s m0).symm
      · exact markFn_preserved r s m0
  | unreadCounts u => exact Or.inr ⟨m', h', rfl, preserved_refl m'⟩
  | conversations u => exact Or.inr ⟨m', h', rfl, preserved_refl m'⟩
  | deleteConv u1 u2 =>
      simp only [applyOp, deleteConversation, List.mem_filter] at h'
      exact Or.inr ⟨m', h'.1, rfl, preserved_refl m'⟩

/-- The AUTOINCREMENT counter never decreases. -/
theorem applyOp_nextId (st : Store) (op : Op) : st.nextId ≤ (applyOp st op).nextId := by
  cases op with
  | persist now s r c ts =>
      simp only [applyOp]
      cases hsend : sendMessage st now s r c ts with
      | error e => exact le_refl _
      | ok p =>
          unfold sendMessage at hsend
          by_cases hv : s = 0 ∨ r = 0 ∨ c = ""
          · rw [if_pos hv] at hsend
            exact absurd hsend (by simp)
          · rw [if_neg hv] at hsend
            simp only [Except.ok.injEq] at hsend
            rw [← hsend]
            exact Nat.le_succ _
  | fetchById id => exact le_refl _
  | fetchHistory a b c d => exact le_refl _
  | markRead r s => exact le_refl _
  | unreadCounts u => exact le_refl _
  | conversations u => exact le_refl _
  | deleteConv u1 u2 => exact le_refl _

/-- Auxiliary induction for C5: descendant-tracking carried along a
whole operation sequence. -/
theorem foldl_preserved (ops : List Op) :
    ∀ (st : Store) (m : Message), m.id < st.nextId →
      (∀ x ∈ st.messages, x.id = m.id → preserved m x) →
      ∀ m' ∈ (ops.foldl applyOp st).messages, m'.id = m.id → preserved m m' := by
  induction ops with
  | nil =>
      intro st m _ hinv m' h' hid
      exact hinv m' h' hid
  | cons op rest ih =>
      intro st m hlt hinv m' h' hid
      refine ih (applyOp st op) m (lt_of_lt_of_le hlt (applyOp_nextId st op)) ?_ m' h' hid
      intro x hx hxid
      rcases applyOp_step st op x hx with hfresh | ⟨m0, hm0, hm0id, hpres⟩
      · omega
      · exact preserved_trans (hinv m0 hm0 (hm0id.trans hxid)) hpres

/-- C5: once a message is persisted, no sequence of Message Store
operations ever alters its sender, receiver, content or timestamp, and
its read flag moves only from false to true. -/
theorem message_immutability (ops : List Op) (st : Store) (hWF : st.WF)
    (m : Message) (hm : m ∈ st.messages) :
    ∀ m' ∈ (ops.foldl applyOp st).messages, m'.id = m.id → preserved m m' := by
  refine foldl_preserved ops st m (hWF.1 m hm) ?_
  intro x hx hxid
  have hinj := List.inj_on_of_nodup_map hWF.2
  have : x = m := hinj hx hm hxid
  rw [this]
  exact preserved_refl m

/-- Witness for C5: a two-operation run (mark read, then delete an
unrelated pair) leaves the payload of message 1 intact and its read
flag monotone: the surviving row is a faithful descendant of the
persisted one. -/
theorem message_immutability_witness :
    preserved ⟨1, 1, 2, "hello", "T1", false⟩ ⟨1, 1, 2, "hello", "T1", true⟩ :=
  message_immutability [Op.markRead 2 1, Op.deleteConv 3 4]
    { users := [⟨1, "alice"⟩, ⟨2, "bob"⟩],
      messages := [⟨1, 1, 2, "hello", "T1", false⟩], nextId := 2 }
    ⟨by simp, by simp⟩ ⟨1, 1, 2, "hello", "T1", false⟩ (by simp)
    ⟨1, 1, 2, "hello", "T1", true⟩ (by decide) (by decide)

/-!  The conversation index (C2). -/

theorem le_foldr_max (l : List Nat) (x : Nat) (hx : x ∈ l) : x ≤ l.foldr max 0 := by
  induction l with
  | nil => cases hx
  | cons a t ih =>
      rcases List.mem_cons.mp hx with rfl | hx2
      · exact le_max_left _ _
      · exact le_trans (ih hx2) (le_max_right _ _)

theorem foldr_max_mem (l : List Nat) (h : l ≠ []) : l.foldr max 0 ∈ l := by
  induction l with
  | nil => exact absurd rfl h
  | cons a t ih =>
      cases t with
      | nil => simp
      | cons b t2 =>
          rcases max_choice a ((b :: t2).foldr max 0) with hm | hm

          · rw [List.foldr_cons, hm]
            exact List.mem_cons_self _ _
          · rw [List.foldr_cons, hm]
            exact List.mem_cons_of_mem a (ih (by simp))

theorem findUser_id (users : List User) (x : Nat) (usr : User)
    (h : findUser users x = some usr) : usr.id = x := by
  have := List.find?_some h
  simpa using this

/-- A successful CASE join pins the joined user to the grouping key of
the row and the row to the user's message set. -/
theorem joinOther_spec (users : List User) (u : Nat) (m : Message) (usr : User)
    (h : joinOther users u m = some usr) :
    usr.id = convKey u m ∧ involves u m := by
  unfold joinOther at h
  by_cases h1 : m.sender_id = u
  · rw [if_pos h1] at h
    exact ⟨by rw [findUser_id users m.receiver_id usr h]; unfold convKey; rw [if_pos h1],
           Or.inl h1⟩
  · rw [if_neg h1] at h
    by_cases h2 : m.receiver_id = u
    · rw [if_pos h2] at h
      exact ⟨by rw [findUser_id users m.sender_id usr h]; unfold convKey; rw [if_neg h1],
             Or.inr h2⟩
    · rw [if_neg h2] at h
      cases h

/-- The pair filter between `u` and counterpart `c` is exactly the
conversation bucket of the grouping key. -/
theorem pairMatch_iff_conv (u c : Nat) (m : Message) :
    pairMatch u c m ↔ (involves u m ∧ convKey u m = c) := by
  unfold pairMatch involves convKey
  by_cases h : m.sender_id = u <;> simp [h] <;> omega

theorem convGroupMax_le (st : Store) (u c : Nat) (m : Message)
    (hm : m ∈ convMine st u) (hk : convKey u m = c) :
    m.id ≤ convGroupMax st u c := by
  unfold convGroupMax
  apply le_foldr_max
  rw [List.mem_map]
  exact ⟨m, List.mem_filter.mpr ⟨hm, by simp [hk]⟩, rfl⟩

theorem convGroupMax_attained (st : Store) (u c : Nat)
    (hne : ∃ m ∈ convMine st u, convKey u m = c) :
    ∃ m ∈ convMine st u, convKey u m = c ∧ m.id = convGroupMax st u c := by
  obtain ⟨m0, hm0, hk0⟩ := hne
  have hne2 : ((convMine st u).filter (fun m => convKey u m = c)).map
      (fun m => m.id) ≠ [] := by
    intro hcon
    rw [List.map_eq_nil_iff, List.filter_eq_nil_iff] at hcon
    exact hcon m0 hm0 (by simp [hk0])
  have hmem := foldr_max_mem _ hne2
  rw [List.mem_map] at hmem
  obtain ⟨mc, hmc, hid⟩ := hmem
  rw [List.mem_filter] at hmc
  refine ⟨mc, hmc.1, by simpa using hmc.2, ?_⟩
  unfold convGroupMax
  exact hid

/-- A message whose id is in the `MAX(id)` set is, in a well-formed
store, the maximum-id message of its own conversation bucket. -/
theorem mem_lastIds_spec (st : Store) (u : Nat) (hWF : st.WF) (m : Message)
    (hm : m ∈ st.messages) (hid : m.id ∈ lastIds st u) :
    involves u m ∧
      ∀ m2 ∈ st.messages, involves u m2 → convKey u m2 = convKey u m →
        m2.id ≤ m.id := by
  unfold lastIds at hid
  rw [List.mem_map] at hid
  obtain ⟨c, hc, hcmax⟩ := hid
  rw [List.mem_dedup, List.mem_map] at hc
  obtain ⟨m1, hm1, hk1⟩ := hc
  obtain ⟨mc, hmc, hkc, hmcid⟩ := convGroupMax_attained st u c ⟨m1, hm1, hk1⟩
  have hmcmem : mc ∈ st.messages := (List.mem_filter.mp hmc).1
  have hIdEq : mc.id = m.id := by rw [hmcid, hcmax]
  have hinj := List.inj_on_of_nodup_map hWF.2
  have hmeq : mc = m := hinj hmcmem hm hIdEq
  subst hmeq
  have hinv : involves u mc := by
    have := (List.mem_filter.mp hmc).2
    simpa using this
  refine ⟨hinv, ?_⟩
  intro m2 hm2 hinv2 hk2
  have hm2mine : m2 ∈ convMine st u := List.mem_filter.mpr ⟨hm2, by simpa using hinv2⟩
  calc m2.id ≤ convGroupMax st u c := convGroupMax_le st u c m2 hm2mine (by rw [hk2, hkc])
    _ = mc.id := hmcid.symm

/-- Where a conversation row comes from: the underlying last-message
row and the identities tying the row to its bucket. -/
theorem convRow_origin (st : Store) (u : Nat) (row : ConversationRow)
    (hrow : row ∈ convRows st u) :
    ∃ m ∈ st.messages, (m.id ∈ lastIds st u) ∧ involves u m ∧
      row.id = m.id ∧ row.other_user_id = convKey u m ∧
      row.timestamp = m.timestamp := by
  unfold convRows at hrow
  rw [List.mem_filterMap] at hrow
  obtain ⟨m, hmF, hg⟩ := hrow
  rw [List.mem_filter] at hmF
  cases hj : joinOther st.users u m with
  | none => rw [hj] at hg; cases hg
  | some usr =>
      rw [hj] at hg
      simp only [Option.map_some', Option.some.injEq] at hg
      obtain ⟨husrid, hinv⟩ := joinOther_spec st.users u m usr hj
      refine ⟨m, hmF.1, by simpa using hmF.2, hinv, ?_, ?_, ?_⟩ <;>
        rw [← hg] <;> simp [husrid]

theorem nodup_filterMap_of {α β : Type} (f : α → Option β) (l : List α)
    (hl : l.Nodup)
    (hinj : ∀ a ∈ l, ∀ b ∈ l, ∀ x, f a = some x → f b = some x → a = b) :
    (l.filterMap f).Nodup := by
  induction l with
  | nil => simp
  | cons a t ih =>
      rw [List.nodup_cons] at hl
      rw [List.filterMap_cons]
      cases hfa : f a with
      | none =>
          exact ih hl.2 (fun x hx y hy z h1 h2 =>
            hinj x (List.mem_cons_of_mem a hx) y (List.mem_cons_of_mem a hy) z h1 h2)
      | some x =>
          rw [List.nodup_cons]
          constructor
          · intro hx
            rw [List.mem_filterMap] at hx
            obtain ⟨b, hb, hfb⟩ := hx
            have : a = b := hinj a (List.mem_cons_self a t) b (List.mem_cons_of_mem a hb)
              x hfa hfb
            exact hl.1 (this ▸ hb)
          · exact ih hl.2 (fun x hx y hy z h1 h2 =>
              hinj x (List.mem_cons_of_mem a hx) y (List.mem_cons_of_mem a hy) z h1 h2)

/-- C2: `conversations(user)` returns each counterpart at most once
(the two directions of a pairing share one bucket), every returned row
carries the maximum id of its pairing, and the rows come back ordered
by the last message's timestamp descending. -/
theorem conversations_spec (st : Store) (u : Nat) (hWF : st.WF) :
    ((getUserConversations st u).map (fun r => r.other_user_id)).Nodup
    ∧ (∀ row ∈ getUserConversations st u, ∀ m ∈ st.messages,
        pairMatch u row.other_user_id m → m.id ≤ row.id)
    ∧ List.Sorted tsGe (getUserConversations st u) := by
  have hmsgsnd : st.messages.Nodup := List.Nodup.of_map _ hWF.2
  refine ⟨?_, ?_, ?_⟩
  · unfold getUserConversations
    have hperm := (List.perm_insertionSort tsGe (convRows st u)).map
      (fun r => r.other_user_id)
    rw [hperm.nodup_iff]
    unfold convRows
    rw [List.map_filterMap]
    have hfun : ∀ m : Message,
        ((joinOther st.users u m).map (fun usr =>
          ({ id := m.id, sender_id := m.sender_id, receiver_id := m.receiver_id,
             content := m.content, timestamp := m.timestamp, is_read := m.is_read,
             other_user_name := usr.username, other_user_id := usr.id,
             unread_count := convUnread st u m } : ConversationRow))).map
          (fun r => r.other_user_id) =
        (joinOther st.users u m).map (fun usr => usr.id) := by
      intro m
      cases joinOther st.users u m <;> simp
    simp only [hfun]
    apply nodup_filterMap_of
    · exact (List.filter_sublist st.messages).nodup hmsgsnd
    · intro a ha b hb x hfa hfb
      rw [List.mem_filter] at ha hb
      cases hja : joinOther st.users u a with
      | none => rw [hja] at hfa; cases hfa
      | some ua =>
          cases hjb : joinOther st.users u b with
          | none => rw [hjb] at hfb; cases hfb
          | some ub =>
              rw [hja] at hfa
              rw [hjb] at hfb
              simp only [Option.map_some', Option.some.injEq] at hfa hfb
              have hsa := joinOther_spec st.users u a ua hja
              have hsb := joinOther_spec st.users u b ub hjb
              have hkey : convKey u a = convKey u b := by
                rw [← hsa.1, ← hsb.1, hfa, hfb]
              have hlastA := mem_lastIds_spec st u hWF a ha.1 (by simpa using ha.2)
              have hlastB := mem_lastIds_spec st u hWF b hb.1 (by simpa using hb.2)
              have hab : a.id ≤ b.id := hlastB.2 a ha.1 hsa.2 hkey
              have hba : b.id ≤ a.id := hlastA.2 b hb.1 hsb.2 hkey.symm
              exact List.inj_on_of_nodup_map hWF.2 ha.1 hb.1 (le_antisymm hab hba)
  · intro row hrow m hm hpm
    have hrow2 : row ∈ convRows st u := by
      have := List.mem_insertionSort tsGe (l := convRows st u) (x := row)
      unfold getUserConversations at hrow
      exact this.mp hrow
    obtain ⟨m0, hm0, hlast, hinv0, hid, hkey, _⟩ := convRow_origin st u row hrow2
    rw [hkey] at hpm
    rw [pairMatch_iff_conv] at hpm
    have hmax := (mem_lastIds_spec st u hWF m0 hm0 hlast).2
    rw [hid]
    exact hmax m hm hpm.1 hpm.2
  · exact List.sorted_insertionSort tsGe (convRows st u)

/-- Witness for C2 at a concrete store in which user 1 both sent to and
received from user 2, so both directions fall into one bucket. -/
theorem conversations_spec_witness :
    (((getUserConversations
        { users := [⟨1, "alice"⟩, ⟨2, "bob"⟩],
          messages := [⟨1, 1, 2, "hi", "T1", false⟩, ⟨2, 2, 1, "yo", "T2", false⟩],
          nextId := 3 } 1).map (fun r => r.other_user_id)).Nodup)
    ∧ (∀ row ∈ getUserConversations
        { users := [⟨1, "alice"⟩, ⟨2, "bob"⟩],
          messages := [⟨1, 1, 2, "hi", "T1", false⟩, ⟨2, 2, 1, "yo", "T2", false⟩],
          nextId := 3 } 1, ∀ m ∈ [⟨1, 1, 2, "hi", "T1", false⟩,
            (⟨2, 2, 1, "yo", "T2", false⟩ : Message)],
        pairMatch 1 row.other_user_id m → m.id ≤ row.id)
    ∧ List.Sorted tsGe (getUserConversations
        { users := [⟨1, "alice"⟩, ⟨2, "bob"⟩],
          messages := [⟨1, 1, 2, "hi", "T1", false⟩, ⟨2, 2, 1, "yo", "T2", false⟩],
          nextId := 3 } 1) :=
  conversations_spec
    { users := [⟨1, "alice"⟩, ⟨2, "bob"⟩],
      messages := [⟨1, 1, 2, "hi", "T1", false⟩, ⟨2, 2, 1, "yo", "T2", false⟩],
      nextId := 3 } 1 ⟨by simp, by simp⟩

/-!  The GET /messages route (C7). -/

theorem joinView_fields (users : List User) (m : Message) (mv : MessageView)
    (h : joinView users m = some mv) :
    mv.sender_id = m.sender_id ∧ mv.receiver_id = m.receiver_id := by
  unfold joinView at h
  cases h1 : findUser users m.sender_id with
  | none => rw [h1] at h; cases h
  | some s =>
      cases h2 : findUser users m.receiver_id with
      | none => rw [h1, h2] at h; cases h
      | some r =>
          rw [h1, h2] at h
          simp only [Option.some.injEq] at h
          exact ⟨by rw [← h], by rw [← h]⟩

/-- Every row served by `getMessages` belongs to the queried pair. -/
theorem getMessages_pair (st : Store) (u1 u2 limit offset : Nat) (mv : MessageView)
    (hmv : mv ∈ getMessages st u1 u2 limit offset) :
    (mv.sender_id = u1 ∧ mv.receiver_id = u2) ∨
    (mv.sender_id = u2 ∧ mv.receiver_id = u1) := by
  unfold getMessages at hmv
  have h1 : mv ∈ (pairRows st u1 u2).insertionSort tsLe :=
    List.Sublist.mem hmv
      ((List.take_sublist _ _).trans (List.drop_sublist _ _))
  rw [List.mem_insertionSort tsLe] at h1
  unfold pairRows at h1
  rw [List.mem_filterMap] at h1
  obtain ⟨m, hm, hjoin⟩ := h1
  rw [List.mem_filter] at hm
  have hpair : pairMatch u1 u2 m := by simpa using hm.2
  obtain ⟨hs, hr⟩ := joinView_fields st.users m mv hjoin
  rw [hs, hr]
  exact hpair

/-- The served history is sorted ascending by timestamp. -/
theorem getMessages_sorted (st : Store) (u1 u2 limit offset : Nat) :
    List.Sorted tsLe (getMessages st u1 u2 limit offset) := by
  unfold getMessages
  exact List.Pairwise.sublist
    ((List.take_sublist _ _).trans (List.drop_sublist _ _))
    (List.sorted_insertionSort tsLe (pairRows st u1 u2))

/-- C7: a `GET /messages` request carrying both ids answers the pair's
history ascending by timestamp and, as its side effect, marks read
exactly the unread messages addressed to the query's `sender_id` from
the query's `receiver_id`; every other row — other pairs, the opposite
direction, already-read rows — is returned to the store untouched. -/
theorem messagesRoute_spec (st : Store) (sender_id receiver_id limit offset : Nat)
    (hs : sender_id ≠ 0) (hr : receiver_id ≠ 0) :
    ∃ resp, getMessagesRoute st sender_id receiver_id limit offset =
        ((markMessagesAsRead st sender_id receiver_id).1, some resp)
      ∧ resp.count = resp.messages.length
      ∧ List.Sorted tsLe resp.messages
      ∧ (∀ mv ∈ resp.messages,
          (mv.sender_id = sender_id ∧ mv.receiver_id = receiver_id) ∨
          (mv.sender_id = receiver_id ∧ mv.receiver_id = sender_id))
      ∧ List.Forall₂ (fun old new => new =
          if unreadFrom sender_id receiver_id old then { old with is_read := true }
          else old)
          st.messages
          (getMessagesRoute st sender_id receiver_id limit offset).1.messages := by
  have hvalid : ¬ (sender_id = 0 ∨ receiver_id = 0) := by
    push_neg
    exact ⟨hs, hr⟩
  have hroute : getMessagesRoute st sender_id receiver_id limit offset =
      ((markMessagesAsRead st sender_id receiver_id).1,
       some { count := (getMessages st sender_id receiver_id
                (if limit = 0 then 50 else limit) offset).length,
              messages := getMessages st sender_id receiver_id
                (if limit = 0 then 50 else limit) offset }) := by
    unfold getMessagesRoute
    rw [if_neg hvalid]
  refine ⟨_, hroute, rfl, getMessages_sorted st sender_id receiver_id _ offset,
    fun mv hmv => getMessages_pair st sender_id receiver_id _ offset mv hmv, ?_⟩
  rw [hroute]
  rw [markMessagesAsRead_eq]
  rw [List.forall₂_map_right_iff, List.forall₂_same]
  intro x _
  rfl

/-- Witness for C7: one unread message in each direction; the request
marks only the one addressed to the query's `sender_id`. -/
theorem messagesRoute_spec_witness :
    ∃ resp, getMessagesRoute
        { users := [⟨1, "alice"⟩, ⟨2, "bob"⟩],
          messages := [⟨1, 1, 2, "hi", "T1", false⟩, ⟨2, 2, 1, "yo", "T2", false⟩],
          nextId := 3 } 1 2 0 0 =
        ((markMessagesAsRead
            { users := [⟨1, "alice"⟩, ⟨2, "bob"⟩],
              messages := [⟨1, 1, 2, "hi", "T1", false⟩, ⟨2, 2, 1, "yo", "T2", false⟩],
              nextId := 3 } 1 2).1, some resp)
      ∧ resp.count = resp.messages.length
      ∧ List.Sorted tsLe resp.messages
      ∧ (∀ mv ∈ resp.messages,
          (mv.sender_id = 1 ∧ mv.receiver_id = 2) ∨
          (mv.sender_id = 2 ∧ mv.receiver_id = 1))
      ∧ List.Forall₂ (fun old new => new =
          if unreadFrom 1 2 old then { old with is_read := true } else old)
          [⟨1, 1, 2, "hi", "T1", false⟩, ⟨2, 2, 1, "yo", "T2", false⟩]
          (getMessagesRoute
            { users := [⟨1, "alice"⟩, ⟨2, "bob"⟩],
              messages := [⟨1, 1, 2, "hi", "T1", false⟩, ⟨2, 2, 1, "yo", "T2", false⟩],
              nextId := 3 } 1 2 0 0).1.messages :=
  messagesRoute_spec
    { users := [⟨1, "alice"⟩, ⟨2, "bob"⟩],
      messages := [⟨1, 1, 2, "hi", "T1", false⟩, ⟨2, 2, 1, "yo", "T2", false⟩],
      nextId := 3 } 1 2 0 0 (by decide) (by decide)

/-!  The sorted-pair room key (C8). -/

theorem charListLt_asymm (a b : List Char) (h : charListLt a b = true) :
    charListLt b a = false := by
  induction a generalizing b with
  | nil =>
      cases b with
      | nil => simp [charListLt] at h
      | cons y bs => simp [charListLt]
  | cons x as ih =>
      cases b with
      | nil => simp [charListLt] at h
      | cons y bs =>
          unfold charListLt at h ⊢
          by_cases hxy : x < y
          · rw [if_pos hxy]
            rw [if_neg (asymm hxy)]
          · rw [if_neg hxy] at h
            by_cases hyx : y < x
            · rw [if_pos hyx] at h
              cases h
            · rw [if_neg hyx] at h
              rw [if_neg hyx, if_neg hxy]
              exact ih bs h

theorem charListLt_conn (a b : List Char) (h1 : charListLt a b = false)
    (h2 : charListLt b a = false) : a = b := by
  induction a generalizing b with
  | nil =>
      cases b with
      | nil => rfl
      | cons y bs => simp [charListLt] at h1
  | cons x as ih =>
      cases b with
      | nil => simp [charListLt] at h2
      | cons y bs =>
          unfold charListLt at h1 h2
          by_cases hxy : x < y
          · rw [if_pos hxy] at h1
            cases h1
          · by_cases hyx : y < x
            · rw [if_pos hyx] at h2
              cases h2
            · rw [if_neg hxy, if_neg hyx] at h1
              rw [if_neg hyx, if_neg hxy] at h2
              have hchar : x = y := le_antisymm (not_lt.mp hyx) (not_lt.mp hxy)
              rw [hchar, ih bs h1 h2]

/-- The sorted-pair key does not depend on which participant computes
it. -/
theorem roomKey_comm (a b : Nat) : roomKey a b = roomKey b a := by
  unfold roomKey
  cases h1 : strLt (toString a) (toString b) <;>
    cases h2 : strLt (toString b) (toString a)
  · have heq : (toString a).toList = (toString b).toList :=
      charListLt_conn _ _ h1 h2
    have heq2 : toString a = toString b := by
      have := congrArg String.mk heq
      simpa using this
    simp only [Bool.false_eq_true, if_false]
    rw [heq2]
  · simp
  · simp
  · have hasym := charListLt_asymm _ _ h1
    have h2x : charListLt (toString b).toList (toString a).toList = true := h2
    rw [hasym] at h2x
    cases h2x

/-- C8: the sorted-pair room key is symmetric, and every realtime
handler computes the counterpart's key for the same room: a socket
joining a conversation lands in, marks its current chat as, relays
typing to, and receives read receipts in exactly the room the other
participant computes. -/
theorem roomKey_symmetric (a b : Nat) (c : Conn) (st : ChatState)
    (hc : c.uid = a) (hb : b ≠ 0) :
    roomKey a b = roomKey b a
    ∧ roomKey b a ∈ (onJoinConversation c b).1.rooms
    ∧ (onJoinConversation c b).1.currentChat = some (roomKey b a)
    ∧ onTyping c b = [(Target.roomExcept (roomKey b a) c.sid, Event.user_typing a)]
    ∧ (onMarkRead st c b).2 = [(Target.room (roomKey b a),
        Event.messages_read b a (markMessagesAsRead st.store a b).2)] := by
  have hsym : roomKey a b = roomKey b a := roomKey_comm a b
  refine ⟨hsym, ?_, ?_, ?_, ?_⟩
  · unfold onJoinConversation
    rw [if_neg hb, ← hsym, hc]
    by_cases hmem : roomKey a b ∈ c.rooms <;> simp [hmem]
  · unfold onJoinConversation
    rw [if_neg hb, ← hsym, hc]
  · unfold onTyping
    rw [if_neg hb, ← hsym, hc]
  · unfold onMarkRead
    rw [if_neg hb, ← hsym, hc]

/-- Witness for C8: users 1 and 2, with user 1's socket joining. -/
theorem roomKey_symmetric_witness :
    roomKey 1 2 = roomKey 2 1
    ∧ roomKey 2 1 ∈ (onJoinConversation ⟨"s1", 1, [userRoom 1], none⟩ 2).1.rooms
    ∧ (onJoinConversation ⟨"s1", 1, [userRoom 1], none⟩ 2).1.currentChat =
        some (roomKey 2 1)
    ∧ onTyping ⟨"s1", 1, [userRoom 1], none⟩ 2 =
        [(Target.roomExcept (roomKey 2 1) "s1", Event.user_typing 1)]
    ∧ (onMarkRead ⟨[], [], ⟨[], [], 1⟩⟩ ⟨"s1", 1, [userRoom 1], none⟩ 2).2 =
        [(Target.room (roomKey 2 1),
          Event.messages_read 2 1 (markMessagesAsRead ⟨[], [], 1⟩ 1 2).2)] :=
  roomKey_symmetric 1 2 ⟨"s1", 1, [userRoom 1], none⟩ ⟨[], [], ⟨[], [], 1⟩⟩
    rfl (by decide)

/-!  The presence map (C10). -/

theorem find?_key_map_overwrite (m : List (Nat × String)) (k : Nat) (v : String)
    (hany : m.any (fun p => p.1 = k) = true) :
    ((m.map (fun p => if p.1 = k then (k, v) else p)).find?
      (fun p => p.1 = k)) = some (k, v) := by
  induction m with
  | nil => simp at hany
  | cons p t ih =>
      by_cases hp : p.1 = k
      · simp [hp]
      · have ht : t.any (fun p => p.1 = k) = true := by
          simpa [List.any_cons, hp] using hany
        simp [hp, ih ht]

theorem find?_key_append_new (m : List (Nat × String)) (k : Nat) (v : String)
    (hnone : m.any (fun p => p.1 = k) = false) :
    (((m ++ [(k, v)]).find? (fun p => p.1 = k))) = some (k, v) := by
  rw [find?_append_of_none]
  · simp
  · intro x hx
    have := List.any_eq_false.mp hnone x hx
    simpa using this

theorem mapGet_mapSet_self (m : List (Nat × String)) (k : Nat) (v : String) :
    mapGet (mapSet m k v) k = some v := by
  unfold mapSet mapGet
  split
  next hany => rw [find?_key_map_overwrite m k v hany]; rfl
  next hany =>
      rw [find?_key_append_new m k v (by rw [← Bool.not_eq_true]; exact hany)]
      rfl

theorem mapGet_mapDelete_self (m : List (Nat × String)) (k : Nat) :
    mapGet (mapDelete m k) k = none := by
  unfold mapDelete mapGet
  have hfind : ((m.filter (fun p => ¬ p.1 = k)).find? (fun p => p.1 = k)) = none := by
    rw [List.find?_eq_none]
    intro x hx
    rw [List.mem_filter] at hx
    simpa using hx.2
  rw [hfind]
  rfl

theorem mapSet_keys_nodup (m : List (Nat × String)) (k : Nat) (v : String)
    (h : (m.map Prod.fst).Nodup) : ((mapSet m k v).map Prod.fst).Nodup := by
  unfold mapSet
  split
  next hany =>
      have hkeys : (m.map (fun p => if p.1 = k then ((k, v) : Nat × String) else p)).map
          Prod.fst = m.map Prod.fst := by
        rw [List.map_map]
        apply List.map_congr_left
        intro p _
        by_cases hp : p.1 = k
        · simp [hp]
        · simp [hp]
      rw [hkeys]
      exact h
  next hany =>
      rw [List.map_append, List.nodup_append]
      refine ⟨h, List.nodup_singleton k, ?_⟩
      intro x hx hx2
      rw [List.map_singleton, List.mem_singleton] at hx2
      rw [List.mem_map] at hx
      obtain ⟨p, hp, hpk⟩ := hx
      have hfalse : m.any (fun q => q.1 = k) = false := by
        rw [← Bool.not_eq_true]
        exact hany
      have hnk := List.any_eq_false.mp hfalse p hp
      simp only [decide_eq_true_eq] at hnk
      exact hnk (by rw [hpk, hx2])

theorem mapDelete_keys_nodup (m : List (Nat × String)) (k : Nat)
    (h : (m.map Prod.fst).Nodup) : ((mapDelete m k).map Prod.fst).Nodup :=
  List.Nodup.sublist ((List.filter_sublist m).map Prod.fst) h

/-- C10: the presence map keeps at most one handle per user; a second
connection of an online user overwrites the stored handle; and a
disconnect removes the user's entry entirely and broadcasts offline,
even when another connection of the same user remains open. -/
theorem presence_single_handle (st : ChatState) (sid : String) (uid : Nat) (c : Conn)
    (hnodup : (st.activeUsers.map Prod.fst).Nodup) :
    ((onConnection st sid uid).1.activeUsers.map Prod.fst).Nodup
    ∧ ((onDisconnect st sid).1.activeUsers.map Prod.fst).Nodup
    ∧ (uid ≠ 0 → mapGet (onConnection st sid uid).1.activeUsers uid = some sid)
    ∧ (st.conns.find? (fun x => x.sid = sid) = some c →
        mapGet (onDisconnect st sid).1.activeUsers c.uid = none
        ∧ (onDisconnect st sid).2 = [(Target.all, Event.user_status c.uid "offline")]
        ∧ ∀ c2 ∈ st.conns, c2.sid ≠ sid → c2 ∈ (onDisconnect st sid).1.conns) := by
  refine ⟨?_, ?_, ?_, ?_⟩
  · unfold onConnection
    by_cases h : uid = 0
    · rw [if_pos h]
      exact hnodup
    · rw [if_neg h]
      exact mapSet_keys_nodup st.activeUsers uid sid hnodup
  · unfold onDisconnect
    cases hfind : st.conns.find? (fun x => x.sid = sid) with
    | none => exact hnodup
    | some c0 => exact mapDelete_keys_nodup st.activeUsers c0.uid hnodup
  · intro h
    unfold onConnection
    rw [if_neg h]
    exact mapGet_mapSet_self st.activeUsers uid sid
  · intro hfind
    unfold onDisconnect
    rw [hfind]
    refine ⟨mapGet_mapDelete_self st.activeUsers c.uid, rfl, ?_⟩
    intro c2 hc2 hne
    simp only [List.mem_filter]
    exact ⟨hc2, by simpa using hne⟩

/-- Witness for C10: user 1 holds two open sockets; the first socket's
disconnect wipes the presence entry and broadcasts offline while the
second socket is still connected. -/
theorem presence_single_handle_witness :
    ((onConnection
        ⟨[⟨"s1", 1, [userRoom 1], none⟩, ⟨"s2", 1, [userRoom 1], none⟩],
         [(1, "s2")], ⟨[], [], 1⟩⟩ "s1" 2).1.activeUsers.map Prod.fst).Nodup
    ∧ ((onDisconnect
        ⟨[⟨"s1", 1, [userRoom 1], none⟩, ⟨"s2", 1, [userRoom 1], none⟩],
         [(1, "s2")], ⟨[], [], 1⟩⟩ "s1").1.activeUsers.map Prod.fst).Nodup
    ∧ (2 ≠ 0 → mapGet (onConnection
        ⟨[⟨"s1", 1, [userRoom 1], none⟩, ⟨"s2", 1, [userRoom 1], none⟩],
         [(1, "s2")], ⟨[], [], 1⟩⟩ "s1" 2).1.activeUsers 2 = some "s1")
    ∧ ([⟨"s1", 1, [userRoom 1], none⟩,
        (⟨"s2", 1, [userRoom 1], none⟩ : Conn)].find? (fun x => x.sid = "s1") =
          some ⟨"s1", 1, [userRoom 1], none⟩ →
        mapGet (onDisconnect
          ⟨[⟨"s1", 1, [userRoom 1], none⟩, ⟨"s2", 1, [userRoom 1], none⟩],
           [(1, "s2")], ⟨[], [], 1⟩⟩ "s1").1.activeUsers 1 = none
        ∧ (onDisconnect
            ⟨[⟨"s1", 1, [userRoom 1], none⟩, ⟨"s2", 1, [userRoom 1], none⟩],
             [(1, "s2")], ⟨[], [], 1⟩⟩ "s1").2 =
            [(Target.all, Event.user_status 1 "offline")]
        ∧ ∀ c2 ∈ [⟨"s1", 1, [userRoom 1], none⟩,
            (⟨"s2", 1, [userRoom 1], none⟩ : Conn)], c2.sid ≠ "s1" →
            c2 ∈ (onDisconnect
              ⟨[⟨"s1", 1, [userRoom 1], none⟩, ⟨"s2", 1, [userRoom 1], none⟩],
               [(1, "s2")], ⟨[], [], 1⟩⟩ "s1").1.conns) :=
  presence_single_handle
    ⟨[⟨"s1", 1, [userRoom 1], none⟩, ⟨"s2", 1, [userRoom 1], none⟩],
     [(1, "s2")], ⟨[], [], 1⟩⟩ "s1" 2 ⟨"s1", 1, [userRoom 1], none⟩ (by simp)

/-!  The send_message broadcast (C1, C4). -/

/-- Nothing in the notification tail is a `new_message` event: it is
either empty, one `message_notification`, or one caught error. -/
theorem notifyEmits_no_new (conns : List Conn) (activeUsers : List (Nat × String))
    (senderSid : String) (sender_id receiver_id : Nat) (roomName : String)
    (mv : Option MessageView) :
    ∀ p ∈ notifyEmits conns activeUsers senderSid sender_id receiver_id roomName mv,
      ¬ isNewMessage p.2 := by
  intro p hp
  unfold notifyEmits at hp
  by_cases h1 : mapHas activeUsers receiver_id = true
  · rw [if_pos h1] at hp
    cases h2 : mapGet activeUsers receiver_id with
    | none => rw [h2] at hp; cases hp
    | some rsid =>
        rw [h2] at hp
        dsimp only at hp
        cases h3 : conns.find? (fun x => x.sid = rsid) with
        | none => rw [h3] at hp; dsimp only at hp; cases hp
        | some rs =>
            rw [h3] at hp
            dsimp only at hp
            by_cases h4 : rs.currentChat ≠ some roomName
            · rw [if_pos h4] at hp
              cases mv with
              | some msg =>
                  rw [List.mem_singleton] at hp
                  rw [hp]
                  simp [isNewMessage]
              | none =>
                  rw [List.mem_singleton] at hp
                  rw [hp]
                  simp [isNewMessage]
            · rw [if_neg h4] at hp
              cases hp
  · rw [if_neg h1] at hp
    cases hp

/-- The fully reduced success path of the `send_message` handler. -/
theorem onSendMessage_ok (st : ChatState) (c : Conn) (receiver_id : Nat)
    (content now : String)
    (huid : c.uid ≠ 0) (hr : receiver_id ≠ 0) (hc1 : content ≠ "")
    (hc2 : trimEmpty content = false) :
    onSendMessage st c receiver_id content now true =
      ({ st with store :=
          { st.store with
            messages := st.store.messages ++
              [{ id := st.store.nextId, sender_id := c.uid, receiver_id := receiver_id,
                 content := content, timestamp := now, is_read := false }],
            nextId := st.store.nextId + 1 } },
       [(Target.room (roomKey c.uid receiver_id), Event.new_message
          (getMessageById
            { st.store with
              messages := st.store.messages ++
                [{ id := st.store.nextId, sender_id := c.uid, receiver_id := receiver_id,
                   content := content, timestamp := now, is_read := false }],
              nextId := st.store.nextId + 1 } st.store.nextId)),
        (Target.room (userRoom c.uid), Event.new_message
          (getMessageById
            { st.store with
              messages := st.store.messages ++
                [{ id := st.store.nextId, sender_id := c.uid, receiver_id := receiver_id,
                   content := content, timestamp := now, is_read := false }],
              nextId := st.store.nextId + 1 } st.store.nextId)),
        (Target.room (userRoom receiver_id), Event.new_message
          (getMessageById
            { st.store with
              messages := st.store.messages ++
                [{ id := st.store.nextId, sender_id := c.uid, receiver_id := receiver_id,
                   content := content, timestamp := now, is_read := false }],
              nextId := st.store.nextId + 1 } st.store.nextId))]
       ++ notifyEmits st.conns st.activeUsers c.sid c.uid receiver_id
          (roomKey c.uid receiver_id)
          (getMessageById
            { st.store with
              messages := st.store.messages ++
                [{ id := st.store.nextId, sender_id := c.uid, receiver_id := receiver_id,
                   content := content, timestamp := now, is_read := false }],
              nextId := st.store.nextId + 1 } st.store.nextId)) := by
  have hval1 : ¬ (receiver_id = 0 ∨ content = "" ∨ trimEmpty content = true) := by
    push_neg
    exact ⟨hr, hc1, by simp [hc2]⟩
  have hval2 : ¬ (c.uid = 0 ∨ receiver_id = 0 ∨ content = "") := by
    push_neg
    exact ⟨huid, hr, hc1⟩
  unfold onSendMessage
  rw [if_neg hval1]
  unfold sendMessage
  rw [if_pos rfl, if_neg hval2]

/-- C1 (amended): a successful realtime send emits `new_message` exactly
three times — once to the sorted-pair room, once to the sender's
personal channel, once to the receiver's — so every connection receives
one copy per scope it has joined: at least one copy when it belongs to
any of the three scopes, but one copy for EACH scope it belongs to, not
a deduplicated single copy. -/
theorem sendMessage_broadcast (st : ChatState) (c : Conn) (receiver_id : Nat)
    (content now : String)
    (huid : c.uid ≠ 0) (hr : receiver_id ≠ 0) (hc1 : content ≠ "")
    (hc2 : trimEmpty content = false) :
    (∃ mv, newMessageTargets (onSendMessage st c receiver_id content now true).2 =
      [Target.room (roomKey c.uid receiver_id), Target.room (userRoom c.uid),
       Target.room (userRoom receiver_id)] ∧
      (onSendMessage st c receiver_id content now true).2.take 3 =
        [(Target.room (roomKey c.uid receiver_id), Event.new_message mv),
         (Target.room (userRoom c.uid), Event.new_message mv),
         (Target.room (userRoom receiver_id), Event.new_message mv)])
    ∧ (∀ x : Conn,
        newMessageCopies x (onSendMessage st c receiver_id content now true).2 =
          [roomKey c.uid receiver_id, userRoom c.uid, userRoom receiver_id].countP
            (fun rm => decide (rm ∈ x.rooms)))
    ∧ (∀ x : Conn,
        (roomKey c.uid receiver_id ∈ x.rooms ∨ userRoom c.uid ∈ x.rooms ∨
          userRoom receiver_id ∈ x.rooms) →
        1 ≤ newMessageCopies x (onSendMessage st c receiver_id content now true).2) := by
  rw [onSendMessage_ok st c receiver_id content now huid hr hc1 hc2]
  have htail := notifyEmits_no_new st.conns st.activeUsers c.sid c.uid receiver_id
    (roomKey c.uid receiver_id)
    (getMessageById
      { st.store with
        messages := st.store.messages ++
          [{ id := st.store.nextId, sender_id := c.uid, receiver_id := receiver_id,
             content := content, timestamp := now, is_read := false }],
        nextId := st.store.nextId + 1 } st.store.nextId)
  refine ⟨⟨_, ?_, rfl⟩, ?_, ?_⟩
  · unfold newMessageTargets
    rw [List.filterMap_append]
    have hzero : (notifyEmits st.conns st.activeUsers c.sid c.uid receiver_id
        (roomKey c.uid receiver_id)
        (getMessageById
          { st.store with
            messages := st.store.messages ++
              [{ id := st.store.nextId, sender_id := c.uid, receiver_id := receiver_id,
                 content := content, timestamp := now, is_read := false }],
            nextId := st.store.nextId + 1 } st.store.nextId)).filterMap
        (fun p => match p.2 with
          | Event.new_message _ => some p.1
          | _ => none) = [] := by
      rw [List.filterMap_eq_nil_iff]
      intro p hp
      have := htail p hp
      cases hev : p.2 <;> simp_all [isNewMessage]
    rw [hzero]
    rfl
  · intro x
    unfold newMessageCopies
    rw [List.countP_append]
    have hzero : (notifyEmits st.conns st.activeUsers c.sid c.uid receiver_id
        (roomKey c.uid receiver_id)
        (getMessageById
          { st.store with
            messages := st.store.messages ++
              [{ id := st.store.nextId, sender_id := c.uid, receiver_id := receiver_id,
                 content := content, timestamp := now, is_read := false }],
            nextId := st.store.nextId + 1 } st.store.nextId)).countP
        (fun p => decide (isNewMessage p.2 ∧ receives x p.1)) = 0 := by
      rw [List.countP_eq_zero]
      intro p hp
      have := htail p hp
      simp [this]
    rw [hzero]
    simp [List.countP_cons, isNewMessage, receives]
  · intro x hx
    unfold newMessageCopies
    rw [List.countP_append]
    have hpos : 0 < ([(Target.room (roomKey c.uid receiver_id), Event.new_message
        (getMessageById
          { st.store with
            messages := st.store.messages ++
              [{ id := st.store.nextId, sender_id := c.uid, receiver_id := receiver_id,
                 content := content, timestamp := now, is_read := false }],
            nextId := st.store.nextId + 1 } st.store.nextId)),
        (Target.room (userRoom c.uid), Event.new_message
          (getMessageById
            { st.store with
              messages := st.store.messages ++
                [{ id := st.store.nextId, sender_id := c.uid, receiver_id := receiver_id,
                   content := content, timestamp := now, is_read := false }],
              nextId := st.store.nextId + 1 } st.store.nextId)),
        (Target.room (userRoom receiver_id), Event.new_message
          (getMessageById
            { st.store with
              messages := st.store.messages ++
                [{ id := st.store.nextId, sender_id := c.uid, receiver_id := receiver_id,
                   content := content, timestamp := now, is_read := false }],
              nextId := st.store.nextId + 1 } st.store.nextId))].countP
        (fun p => decide (isNewMessage p.2 ∧ receives x p.1))) := by
      rw [List.countP_pos_iff]
      rcases hx with h | h | h
      · exact ⟨_, List.mem_cons_self _ _, by simp [isNewMessage, receives, h]⟩
      · exact ⟨_, List.mem_cons_of_mem _ (List.mem_cons_self _ _),
          by simp [isNewMessage, receives, h]⟩
      · exact ⟨_, List.mem_cons_of_mem _ (List.mem_cons_of_mem _
          (List.mem_cons_self _ _)), by simp [isNewMessage, receives, h]⟩
    omega

/-- Counterexample to C1 as stated: user 1's own connection has joined
both the pair room and its personal channel (the normal state after
`join_conversation`), and a successful send delivers it TWO copies of
`new_message` — one from the pair-room broadcast and one from the
personal-channel broadcast — because the three emits are separate. -/
theorem sendMessage_duplicate_counterexample :
    newMessageCopies ⟨"s1", 1, ["user_1", "1_2"], some "1_2"⟩
      (onSendMessage
        ⟨[⟨"s1", 1, ["user_1", "1_2"], some "1_2"⟩], [(1, "s1")],
         ⟨[⟨1, "alice"⟩, ⟨2, "bob"⟩], [], 1⟩⟩
        ⟨"s1", 1, ["user_1", "1_2"], some "1_2"⟩ 2 "hi" "T0" true).2 = 2 ∧
    ¬ (newMessageCopies ⟨"s1", 1, ["user_1", "1_2"], some "1_2"⟩
      (onSendMessage
        ⟨[⟨"s1", 1, ["user_1", "1_2"], some "1_2"⟩], [(1, "s1")],
         ⟨[⟨1, "alice"⟩, ⟨2, "bob"⟩], [], 1⟩⟩
        ⟨"s1", 1, ["user_1", "1_2"], some "1_2"⟩ 2 "hi" "T0" true).2 ≤ 1) := by
  decide

/-- Witness for the amended C1 at a concrete state. -/
theorem sendMessage_broadcast_witness :
    (∃ mv, newMessageTargets (onSendMessage
        ⟨[], [], ⟨[⟨1, "alice"⟩, ⟨2, "bob"⟩], [], 1⟩⟩
        ⟨"s1", 1, [userRoom 1], none⟩ 2 "hi" "T0" true).2 =
      [Target.room (roomKey 1 2), Target.room (userRoom 1),
       Target.room (userRoom 2)] ∧
      (onSendMessage ⟨[], [], ⟨[⟨1, "alice"⟩, ⟨2, "bob"⟩], [], 1⟩⟩
        ⟨"s1", 1, [userRoom 1], none⟩ 2 "hi" "T0" true).2.take 3 =
        [(Target.room (roomKey 1 2), Event.new_message mv),
         (Target.room (userRoom 1), Event.new_message mv),
         (Target.room (userRoom 2), Event.new_message mv)])
    ∧ (∀ x : Conn,
        newMessageCopies x (onSendMessage
          ⟨[], [], ⟨[⟨1, "alice"⟩, ⟨2, "bob"⟩], [], 1⟩⟩
          ⟨"s1", 1, [userRoom 1], none⟩ 2 "hi" "T0" true).2 =
          [roomKey 1 2, userRoom 1, userRoom 2].countP
            (fun rm => decide (rm ∈ x.rooms)))
    ∧ (∀ x : Conn,
        (roomKey 1 2 ∈ x.rooms ∨ userRoom 1 ∈ x.rooms ∨ userRoom 2 ∈ x.rooms) →
        1 ≤ newMessageCopies x (onSendMessage
          ⟨[], [], ⟨[⟨1, "alice"⟩, ⟨2, "bob"⟩], [], 1⟩⟩
          ⟨"s1", 1, [userRoom 1], none⟩ 2 "hi" "T0" true).2) :=
  sendMessage_broadcast ⟨[], [], ⟨[⟨1, "alice"⟩, ⟨2, "bob"⟩], [], 1⟩⟩
    ⟨"s1", 1, [userRoom 1], none⟩ 2 "hi" "T0"
    (by decide) (by decide) (by decide) (by decide)

/-- C4: when the persistence call rejects, the handler leaves the whole
state — connections, presence, store — untouched and answers exactly one
`error` event, delivered only to the socket that sent, with no
`new_message` to anyone. -/
theorem sendMessage_failure_no_broadcast (st : ChatState) (c : Conn)
    (receiver_id : Nat) (content now : String)
    (hr : receiver_id ≠ 0) (hc1 : content ≠ "") (hc2 : trimEmpty content = false) :
    onSendMessage st c receiver_id content now false =
      (st, [(Target.sock c.sid, Event.error "Failed to send message")])
    ∧ newMessageTargets (onSendMessage st c receiver_id content now false).2 = []
    ∧ (∀ x : Conn,
        errorCopies x (onSendMessage st c receiver_id content now false).2 =
          if x.sid = c.sid then 1 else 0) := by
  have hval1 : ¬ (receiver_id = 0 ∨ content = "" ∨ trimEmpty content = true) := by
    push_neg
    exact ⟨hr, hc1, by simp [hc2]⟩
  have heq : onSendMessage st c receiver_id content now false =
      (st, [(Target.sock c.sid, Event.error "Failed to send message")]) := by
    unfold onSendMessage
    rw [if_neg hval1]
    rfl
  refine ⟨heq, ?_, ?_⟩
  · rw [heq]
    rfl
  · intro x
    rw [heq]
    unfold errorCopies
    by_cases hx : x.sid = c.sid <;>
      simp [List.countP_cons, isError, receives, hx]

/-- Witness for C4 at a concrete state. -/
theorem sendMessage_failure_witness :
    onSendMessage ⟨[], [], ⟨[⟨1, "alice"⟩, ⟨2, "bob"⟩], [], 1⟩⟩
        ⟨"s1", 1, [userRoom 1], none⟩ 2 "hi" "T0" false =
      (⟨[], [], ⟨[⟨1, "alice"⟩, ⟨2, "bob"⟩], [], 1⟩⟩,
       [(Target.sock "s1", Event.error "Failed to send message")])
    ∧ newMessageTargets (onSendMessage ⟨[], [], ⟨[⟨1, "alice"⟩, ⟨2, "bob"⟩], [], 1⟩⟩
        ⟨"s1", 1, [userRoom 1], none⟩ 2 "hi" "T0" false).2 = []
    ∧ (∀ x : Conn,
        errorCopies x (onSendMessage ⟨[], [], ⟨[⟨1, "alice"⟩, ⟨2, "bob"⟩], [], 1⟩⟩
          ⟨"s1", 1, [userRoom 1], none⟩ 2 "hi" "T0" false).2 =
          if x.sid = "s1" then 1 else 0) :=
  sendMessage_failure_no_broadcast ⟨[], [], ⟨[⟨1, "alice"⟩, ⟨2, "bob"⟩], [], 1⟩⟩
    ⟨"s1", 1, [userRoom 1], none⟩ 2 "hi" "T0" (by decide) (by decide) (by decide)

end P2PChat
